import Mathlib

/-!
Verification of the CasperLabs execution-engine core against its
specification.  The repository sources provide the SemVer value type and
two test contracts; the engine core itself (global state store, capability
validator, account authorizer, deploy executor) is specified but its
implementation is not among the provided files, so those components are
modelled from the specification text and marked as such.
-/

namespace CasperLabs

/-! ## SemVer (from src/execution-engine/contract-ffi/src/value/semver.rs) -/

/-- Embeds the Rust struct `SemVer` with fields major, minor, patch (u32,
modelled as Nat since no arithmetic overflows are involved). -/
structure SemVer where
  major : Nat
  minor : Nat
  patch : Nat
deriving DecidableEq

def SemVer.new (major minor patch : Nat) : SemVer :=
  { major := major, minor := minor, patch := patch }

def SemVer.V1_0_0 : SemVer := ⟨1, 0, 0⟩

/-- The derived `Ord` instance of the Rust struct: fields compared in
declaration order (major, then minor, then patch), as Rust
`derive(PartialOrd, Ord)` prescribes. -/
def SemVer.cmp (a b : SemVer) : Ordering :=
  (compare a.major b.major).then
    ((compare a.minor b.minor).then (compare a.patch b.patch))

/-- The strict order derived from `SemVer.cmp`, i.e. the Rust `<`. -/
def SemVer.ltb (a b : SemVer) : Bool :=
  SemVer.cmp a b == Ordering.lt

/-- The `Display` implementation: renders as
major, a dot, minor, a dot, patch, each in decimal. -/
def SemVer.display (v : SemVer) : String :=
  Nat.repr v.major ++ "." ++ Nat.repr v.minor ++ "." ++ Nat.repr v.patch

/-! ## Core data model (spec section 3) -/

/-- Modelled from the spec: AccessRights is a bit set over READ, WRITE, ADD. -/
structure AccessRights where
  read : Bool
  write : Bool
  addRight : Bool
deriving DecidableEq

def fullRights : AccessRights := ⟨true, true, true⟩

/-- A single required right for a capability check. -/
inductive AccessRight where
  | read
  | write
  | addRight
deriving DecidableEq

def AccessRights.has (rs : AccessRights) : AccessRight → Bool
  | .read => rs.read
  | .write => rs.write
  | .addRight => rs.addRight

/-- Modelled from the spec: Key is a tagged union Account, Hash, URef.
Addresses are modelled as Nat. -/
inductive Key where
  | account (addr : Nat)
  | hash (addr : Nat)
  | uref (addr : Nat) (rights : AccessRights)
deriving DecidableEq

/-- Modelled from the spec: an unforgeable reference is an address plus
access rights. -/
structure URef where
  addr : Nat
  rights : AccessRights
deriving DecidableEq

/-- Modelled from the spec: action thresholds of an account. -/
structure ActionThresholds where
  deployment : Nat
  keyManagement : Nat
deriving DecidableEq

/-- Modelled from the spec: an account holds a public key, named keys,
weighted associated keys and action thresholds.  Public keys and weights
are modelled as Nat. -/
structure Account where
  publicKey : Nat
  namedKeys : List (String × Key)
  associatedKeys : List (Nat × Nat)
  actionThresholds : ActionThresholds
deriving DecidableEq

/-- Modelled from the spec: a contract is bytecode plus named keys. -/
structure Contract where
  bytecode : List Nat
  namedKeys : List (String × Key)
deriving DecidableEq

/-- Modelled from the spec: StoredValue is a tagged union of Account,
Contract and CLValue (typed data, modelled as Nat so that the Add
operation has numeric merge semantics). -/
inductive StoredValue where
  | account (a : Account)
  | contract (c : Contract)
  | clvalue (n : Nat)
deriving DecidableEq

/-! ## GlobalStateStore (spec section 4.1)

Modelled from the spec: the implementation of the versioned trie store is
not among the provided source files.  The model captures its contract:
a store is a sequence of immutable snapshots; a RootHash is the index of a
snapshot; commit applies an ordered effect batch to a snapshot and appends
the result as a new snapshot, never modifying existing ones. -/

/-- Modelled from the spec: an operation is Write, Add (numeric merge for
CLValues) or Prune. -/
inductive Operation where
  | write (v : StoredValue)
  | addOp (delta : Nat)
  | prune
deriving DecidableEq

abbrev Effect := Key × Operation

abbrev Snapshot := Key → Option StoredValue

/-- Modelled from the spec: Add merges via the stored value own addition
semantics (numeric sum for CLValues); Write replaces; Prune removes. -/
def applyOp (old : Option StoredValue) : Operation → Option StoredValue
  | .write v => some v
  | .addOp d =>
    match old with
    | some (.clvalue n) => some (.clvalue (n + d))
    | other => other
  | .prune => none

/-- Modelled from the spec: effects are applied in order to a snapshot. -/
def applyEffects (snap : Snapshot) (effects : List Effect) : Snapshot :=
  effects.foldl
    (fun s e => fun k => if k = e.1 then applyOp (s e.1) e.2 else s k) snap

abbrev RootHash := Nat

structure GlobalStateStore where
  snapshots : List Snapshot

/-- Modelled from the spec: pure read of a key under a root. -/
def GlobalStateStore.get (st : GlobalStateStore) (root : RootHash) (key : Key) :
    Option StoredValue :=
  match st.snapshots[root]? with
  | none => none
  | some snap => snap key

/-- Modelled from the spec: commit applies a batch atomically, producing a
new root; existing snapshots are shared untouched. -/
def GlobalStateStore.commit (st : GlobalStateStore) (root : RootHash)
    (effects : List Effect) : GlobalStateStore × RootHash :=
  (⟨st.snapshots ++ [applyEffects (st.snapshots.getD root (fun _ => none)) effects]⟩,
   st.snapshots.length)

def namedKeysOf : StoredValue → Option (List (String × Key))
  | .account a => some a.namedKeys
  | .contract c => some c.namedKeys
  | .clvalue _ => none

/-- Modelled from the spec: query resolves a key, then follows each path
segment through the named keys of the resolved value. -/
def GlobalStateStore.query (st : GlobalStateStore) (root : RootHash) (key : Key) :
    List String → Option StoredValue
  | [] => st.get root key
  | name :: rest =>
    match st.get root key with
    | none => none
    | some v =>
      match namedKeysOf v with
      | none => none
      | some nks =>
        match nks.find? (fun p => p.1 == name) with
        | none => none
        | some p => st.query root p.2 rest

/-! ## CapabilityValidator (spec section 4.2)

Modelled from the spec: the validator implementation is not among the
provided source files; only the ee_572 regression test exercising it is. -/

inductive CheckError where
  | forgedReference
  | invalidAccess
deriving DecidableEq

/-- Modelled from the spec: the per-deploy execution context carries the
known-URef set (plus gas counter and effect log). -/
structure ExecContext where
  account : Nat
  knownURefs : List URef
  gasCounter : Nat
  effectLog : List Effect

/-- Modelled from the spec: check fails ForgedReference when the address is
not in the known set, InvalidAccess when it is known but the recorded
rights lack the required right. -/
def check (ctx : ExecContext) (u : URef) (r : AccessRight) :
    Except CheckError Unit :=
  match ctx.knownURefs.find? (fun k => k.addr == u.addr) with
  | none => .error .forgedReference
  | some k => if k.rights.has r then .ok () else .error .invalidAccess

/-- Modelled from the spec: every host call that references a URef routes
through check before touching the store. -/
def hostAccessURef (ctx : ExecContext) (snap : Snapshot) (u : URef)
    (r : AccessRight) : Except CheckError (Option StoredValue) :=
  match check ctx u r with
  | .error e => .error e
  | .ok _ => .ok (snap (Key.uref u.addr u.rights))

/-! ## AccountAuthorizer (spec section 4.3)

Modelled from the spec: the authorizer implementation is not among the
provided source files; only the authorized-keys test contract calling it is. -/

inductive AuthError where
  | deploymentAuthorizationFailure
  | invalidThreshold
deriving DecidableEq

/-- Modelled from the spec: sum of the weights of the associated keys that
appear among the signing keys. -/
def authorizationWeight (a : Account) (signingKeys : List Nat) : Nat :=
  ((a.associatedKeys.filter (fun p => signingKeys.contains p.1)).map Prod.snd).sum

/-- Modelled from the spec: sum of all associated-key weights. -/
def totalWeight (a : Account) : Nat :=
  (a.associatedKeys.map Prod.snd).sum

/-- Modelled from the spec: a deploy is authorized iff the authorization
weight reaches the deployment threshold. -/
def authorizeDeploy (a : Account) (signingKeys : List Nat) :
    Except AuthError Unit :=
  if a.actionThresholds.deployment ≤ authorizationWeight a signingKeys then
    .ok ()
  else
    .error .deploymentAuthorizationFailure

inductive ActionType where
  | deployment
  | keyManagement
deriving DecidableEq

/-- Modelled from the spec: setting an action threshold is rejected with
InvalidThreshold when the new weight exceeds the sum of all associated
weights (the threshold would be permanently unreachable). -/
def setActionThreshold (a : Account) (action : ActionType) (w : Nat) :
    Except AuthError Account :=
  if totalWeight a < w then
    .error .invalidThreshold
  else
    .ok { a with actionThresholds :=
      match action with
      | .deployment => { a.actionThresholds with deployment := w }
      | .keyManagement => { a.actionThresholds with keyManagement := w } }

/-- Modelled from the spec: the host applies the result of
setActionThreshold, keeping the account unchanged on rejection. -/
def applySetActionThreshold (a : Account) (action : ActionType) (w : Nat) :
    Account × Option AuthError :=
  match setActionThreshold a action w with
  | .ok a2 => (a2, none)
  | .error e => (a, some e)

/-! ## DeployExecutor (spec section 4.4)

Modelled from the spec: the executor implementation is not among the
provided source files.  A deploy body is abstracted as the sequence of
host steps the interpreter makes; the runner meters gas, accumulates
effects, and finalizes by discarding effects on any non-success terminal
state while keeping the gas consumed. -/

inductive DeployError where
  | deploymentAuthorizationFailure
  | outOfGas
  | forgedReference
  | invalidAccess
  | missingArgument
  | invalidArgument
  | invalidThreshold
deriving DecidableEq

inductive Outcome where
  | succeeded
  | reverted (code : Nat)
  | failed (e : DeployError)
deriving DecidableEq

structure DeployResult where
  outcome : Outcome
  effects : List Effect
  gasCost : Nat
deriving DecidableEq

/-- One step of the interpreter as seen by the host: a successful host call
buffering an effect, a pure computation, a contract-initiated revert, or a
failing host call. -/
inductive HostStep where
  | emit (cost : Nat) (eff : Effect)
  | compute (cost : Nat)
  | revertStep (code : Nat)
  | failStep (cost : Nat) (e : DeployError)

/-- Modelled from the spec: runs the steps, decrementing gas by each cost;
exhausting the gas limit terminates with OutOfGas and the whole limit
charged; a revert or failing host call stops with the gas consumed so far;
the accumulated effect log is kept in all cases (the finalizer decides
whether to discard it). -/
def runSteps (gasLimit : Nat) :
    List HostStep → Nat → List Effect → Outcome × List Effect × Nat
  | [], gasUsed, acc => (.succeeded, acc, gasUsed)
  | step :: rest, gasUsed, acc =>
    match step with
    | .emit c e =>
      if gasLimit < gasUsed + c then (.failed .outOfGas, acc, gasLimit)
      else runSteps gasLimit rest (gasUsed + c) (acc ++ [e])
    | .compute c =>
      if gasLimit < gasUsed + c then (.failed .outOfGas, acc, gasLimit)
      else runSteps gasLimit rest (gasUsed + c) acc
    | .revertStep code => (.reverted code, acc, gasUsed)
    | .failStep c e =>
      if gasLimit < gasUsed + c then (.failed .outOfGas, acc, gasLimit)
      else (.failed e, acc, gasUsed + c)

/-- Modelled from the spec: the executor authorizes the deploy, runs it,
and on any Failed or Reverted terminal state discards the accumulated
effects while still charging the gas consumed; on success the effect log
is returned as a pure value. -/
def execDeploy (a : Account) (signingKeys : List Nat) (gasLimit : Nat)
    (steps : List HostStep) : DeployResult :=
  match authorizeDeploy a signingKeys with
  | .error _ => ⟨.failed .deploymentAuthorizationFailure, [], 0⟩
  | .ok _ =>
    match runSteps gasLimit steps 0 [] with
    | (.succeeded, effs, gas) => ⟨.succeeded, effs, gas⟩
    | (out, _, gas) => ⟨out, [], gas⟩

/-! ## Purse transfer host call (spec section 6)

Modelled from the spec: the mint implementation is not among the provided
source files; only the transfer-purse-to-account-stored test contract
calling it is.  The host call validates the source URef rights, checks the
balance, and buffers balance-adjusting effects rather than mutating. -/

abbrev PurseAddr := Nat

structure MintState where
  balances : List (PurseAddr × Nat)
  accountPurses : List (Nat × PurseAddr)
deriving DecidableEq

def purseBalance (st : MintState) (p : PurseAddr) : Option Nat :=
  (st.balances.find? (fun q => q.1 == p)).map Prod.snd

inductive TransferResult where
  | transferredToExistingAccount
  | transferredToNewAccount
  | transferError
deriving DecidableEq

inductive TransferEffect where
  | setBalance (p : PurseAddr) (n : Nat)
  | creditAccount (acct : Nat) (amount : Nat)
deriving DecidableEq

def setPurseBalance (bs : List (PurseAddr × Nat)) (p : PurseAddr) (n : Nat) :
    List (PurseAddr × Nat) :=
  bs.map (fun q => if q.1 == p then (q.1, n) else q)

def applyTransferEffect (st : MintState) : TransferEffect → MintState
  | .setBalance p n => { st with balances := setPurseBalance st.balances p n }
  | .creditAccount acct amount =>
    match st.accountPurses.find? (fun q => q.1 == acct) with
    | none => st
    | some q =>
      match purseBalance st q.2 with
      | none => st
      | some bal =>
        { st with balances := setPurseBalance st.balances q.2 (bal + amount) }

def applyTransferEffects (st : MintState) (effs : List TransferEffect) :
    MintState :=
  effs.foldl applyTransferEffect st

/-- Modelled from the spec: transfer validates the source URef rights
through check, looks up the source balance, fails with an
insufficient-funds error (producing no effects) when the amount exceeds
it, and otherwise buffers a debit of the source purse and a credit of the
destination account. -/
def transferFromPurseToAccount (ctx : ExecContext) (st : MintState)
    (source : URef) (dest : Nat) (amount : Nat) :
    TransferResult × List TransferEffect :=
  match check ctx source .write with
  | .error _ => (.transferError, [])
  | .ok _ =>
    match purseBalance st source.addr with
    | none => (.transferError, [])
    | some bal =>
      if bal < amount then (.transferError, [])
      else (.transferredToExistingAccount,
            [.setBalance source.addr (bal - amount), .creditAccount dest amount])

/-! ## Deploy arguments (spec section 6)

Modelled from the spec: get_arg reads a deploy argument by index;
MissingArgument when no argument exists at the index, InvalidArgument when
it exists but does not match the requested type. -/

inductive ArgType where
  | weightTy
  | publicKeyTy
  | u512Ty
  | stringTy
deriving DecidableEq

inductive ArgValue where
  | weightV (w : Nat)
  | publicKeyV (pk : Nat)
  | u512V (n : Nat)
  | stringV (s : String)
deriving DecidableEq

def ArgValue.typeOf : ArgValue → ArgType
  | .weightV _ => .weightTy
  | .publicKeyV _ => .publicKeyTy
  | .u512V _ => .u512Ty
  | .stringV _ => .stringTy

inductive ArgError where
  | missingArgument
  | invalidArgument
deriving DecidableEq

/-- Modelled from the spec: get_arg yields MissingArgument when no argument
exists at the index, InvalidArgument when the argument does not match the
requested type, and the typed value otherwise. -/
def getArg (args : List ArgValue) (i : Nat) (t : ArgType) :
    Except ArgError ArgValue :=
  match args[i]? with
  | none => .error .missingArgument
  | some v => if v.typeOf = t then .ok v else .error .invalidArgument

/-! ## The stored transfer contract
(from src/execution-engine/contracts/test/transfer-purse-to-account-stored/src/lib.rs)

The contract runs against the host API; the host responses it observes
(argument deserialization results, the transfer result, the balance read)
are inputs of the embedding, and fresh URef addresses minted by new_turef
are taken from a counter supplied by the host. -/

/-- The contract_api errors the contract converts into revert codes. -/
inductive ApiError where
  | missingArgument
  | invalidArgument
deriving DecidableEq

/-- The argument passed to revert: either a converted contract_api error or
a raw numeric code. -/
inductive RevertCode where
  | api (e : ApiError)
  | raw (code : Nat)
deriving DecidableEq

/-- A value the contract stores under a freshly minted URef: the
Debug-formatted transfer result, or the final balance. -/
inductive NewValue where
  | transferResultText (r : TransferResult)
  | balance (n : Nat)
deriving DecidableEq

/-- What one execution of the transfer entry point does: revert with a
code, or complete having minted values under fresh URefs and written named
keys via put_key. -/
inductive ContractOutcome where
  | contractReverted (c : RevertCode)
  | completed (mints : List (Nat × NewValue)) (putKeys : List (String × Key))
deriving DecidableEq

/-- The host responses observed by one execution of the entry point:
get_arg(0) and get_arg(1) as Option of a deserialization Result, the
result of transfer_from_purse_to_account, the result of get_balance on the
source purse, and the first fresh URef address new_turef will mint. -/
structure TransferHostEnv where
  mainPurse : PurseAddr
  arg0 : Option (Except Unit Nat)
  arg1 : Option (Except Unit Nat)
  transferResult : TransferResult
  balanceResult : Option Nat
  freshBase : Nat

def TRANSFER_RESULT_UREF_NAME : String := "transfer_result"

def MAIN_PURSE_FINAL_BALANCE_UREF_NAME : String := "final_balance"

/-- Embeds the transfer entry point of the stored contract: destination
and amount are read via get_arg with revert on missing or invalid
arguments; the transfer is attempted; get_balance on the source purse
reverts with 103 when it returns None; otherwise the Debug-formatted
transfer result and the final balance are each stored under a fresh URef
and put under the named keys transfer_result and final_balance. -/
def transferEntry (env : TransferHostEnv) : ContractOutcome :=
  match env.arg0 with
  | none => .contractReverted (.api .missingArgument)
  | some (.error _) => .contractReverted (.api .invalidArgument)
  | some (.ok _destination) =>
    match env.arg1 with
    | none => .contractReverted (.api .missingArgument)
    | some (.error _) => .contractReverted (.api .invalidArgument)
    | some (.ok _amount) =>
      match env.balanceResult with
      | none => .contractReverted (.raw 103)
      | some finalBalance =>
        .completed
          [(env.freshBase, .transferResultText env.transferResult),
           (env.freshBase + 1, .balance finalBalance)]
          [(TRANSFER_RESULT_UREF_NAME, Key.uref env.freshBase fullRights),
           (MAIN_PURSE_FINAL_BALANCE_UREF_NAME,
            Key.uref (env.freshBase + 1) fullRights)]

/-- Account used by the deployment-authorization scenario: associated keys
A (public key 1) and B (public key 2) each of weight 1, deployment
threshold 2. -/
def exampleAccountAB : Account :=
  ⟨0, [], [(1, 1), (2, 1)], ⟨2, 2⟩⟩

/-! ## Theorems -/

theorem beq_lt_iff (o : Ordering) : (o == Ordering.lt) = true ↔ o = Ordering.lt := by
  cases o <;> decide

/-- C9: the derived order on SemVer is lexicographic on
(major, minor, patch), and Display renders major.minor.patch in decimal. -/
theorem semver_order_lex_and_display :
    (∀ a b : SemVer, SemVer.ltb a b = true ↔
      (a.major < b.major ∨ (a.major = b.major ∧ (a.minor < b.minor ∨
        (a.minor = b.minor ∧ a.patch < b.patch))))) ∧
    (∀ v : SemVer, SemVer.display v =
      Nat.repr v.major ++ "." ++ Nat.repr v.minor ++ "." ++ Nat.repr v.patch) := by
  constructor
  · intro a b
    simp [SemVer.ltb, SemVer.cmp, beq_lt_iff, Ordering.then_eq_lt,
      Nat.compare_eq_lt, Nat.compare_eq_eq]
  · intro v
    rfl

/-- C1: when a URef address is not in the known set of the execution
context, check and any URef-referencing host call fail with
ForgedReference; holding the bare address grants nothing. -/
theorem forged_reference_on_unknown_uref (ctx : ExecContext) (u : URef)
    (r : AccessRight) (snap : Snapshot)
    (h : ∀ k ∈ ctx.knownURefs, k.addr ≠ u.addr) :
    check ctx u r = .error .forgedReference ∧
    hostAccessURef ctx snap u r = .error .forgedReference := by
  have hfind : ctx.knownURefs.find? (fun k => k.addr == u.addr) = none := by
    apply List.find?_eq_none.2
    intro k hk
    simp [h k hk]
  constructor
  · simp [check, hfind]
  · simp [hostAccessURef, check, hfind]

/-- C1 witness: account 2 knows only the URef at address 7; using address
42 (seen only as a bare key of another account) fails with
ForgedReference. -/
theorem forged_reference_on_unknown_uref_witness :
    check ⟨2, [⟨7, fullRights⟩], 100, []⟩ ⟨42, fullRights⟩ .write =
      .error .forgedReference ∧
    hostAccessURef ⟨2, [⟨7, fullRights⟩], 100, []⟩ (fun _ => none)
      ⟨42, fullRights⟩ .write = .error .forgedReference :=
  forged_reference_on_unknown_uref ⟨2, [⟨7, fullRights⟩], 100, []⟩
    ⟨42, fullRights⟩ .write (fun _ => none) (by decide)

/-- C4: when the requested weight exceeds the sum of all associated-key
weights, set_action_threshold is rejected with InvalidThreshold and the
account (in particular its action thresholds) is unchanged. -/
theorem set_action_threshold_rejects_unreachable (a : Account)
    (action : ActionType) (w : Nat) (h : totalWeight a < w) :
    applySetActionThreshold a action w = (a, some .invalidThreshold) := by
  simp [applySetActionThreshold, setActionThreshold, h]

/-- C4 witness: key-management threshold 5 on an account whose associated
weights sum to 3 is rejected and the account is unchanged. -/
theorem set_action_threshold_rejects_unreachable_witness :
    applySetActionThreshold ⟨1, [], [(1, 1), (2, 2)], ⟨1, 1⟩⟩
        ActionType.keyManagement 5 =
      (⟨1, [], [(1, 1), (2, 2)], ⟨1, 1⟩⟩, some .invalidThreshold) :=
  set_action_threshold_rejects_unreachable ⟨1, [], [(1, 1), (2, 2)], ⟨1, 1⟩⟩
    ActionType.keyManagement 5 (by decide)

/-- C5: a deploy is authorized exactly when the summed weight of the
signing keys that are associated with the account reaches the deployment
threshold; with keys A and B of weight 1 and threshold 2, signing with A
alone fails and signing with A and B succeeds. -/
theorem authorize_deploy_iff_weight :
    (∀ (a : Account) (ks : List Nat),
      authorizeDeploy a ks = Except.ok () ↔
        a.actionThresholds.deployment ≤ authorizationWeight a ks) ∧
    authorizeDeploy exampleAccountAB [1] =
      .error .deploymentAuthorizationFailure ∧
    authorizeDeploy exampleAccountAB [1, 2] = .ok () := by
  refine ⟨?_, rfl, rfl⟩
  intro a ks
  by_cases hc : a.actionThresholds.deployment ≤ authorizationWeight a ks
  · simp [authorizeDeploy, hc]
  · simp [authorizeDeploy, hc]

/-- C8: get_arg yields MissingArgument when no argument exists at the
index, InvalidArgument when the argument does not match the requested
type, and the typed value otherwise. -/
theorem get_arg_spec (args : List ArgValue) (i : Nat) (t : ArgType) :
    (args[i]? = none → getArg args i t = .error .missingArgument) ∧
    (∀ v, args[i]? = some v → v.typeOf ≠ t →
      getArg args i t = .error .invalidArgument) ∧
    (∀ v, args[i]? = some v → v.typeOf = t → getArg args i t = .ok v) := by
  refine ⟨fun hn => ?_, fun v hv hne => ?_, fun v hv he => ?_⟩
  · simp [getArg, hn]
  · simp [getArg, hv, hne]
  · simp [getArg, hv, he]

/-- C8 witness: with a single Weight argument, index 1 is missing, index 0
read at the wrong type is invalid, and index 0 read as a Weight returns
the value. -/
theorem get_arg_spec_witness :
    getArg [ArgValue.weightV 1] 1 ArgType.weightTy =
      .error .missingArgument ∧
    getArg [ArgValue.weightV 1] 0 ArgType.publicKeyTy =
      .error .invalidArgument ∧
    getArg [ArgValue.weightV 1] 0 ArgType.weightTy =
      .ok (ArgValue.weightV 1) :=
  ⟨(get_arg_spec [ArgValue.weightV 1] 1 ArgType.weightTy).1 rfl,
   (get_arg_spec [ArgValue.weightV 1] 0 ArgType.publicKeyTy).2.1
     (ArgValue.weightV 1) rfl (by decide),
   (get_arg_spec [ArgValue.weightV 1] 0 ArgType.weightTy).2.2
     (ArgValue.weightV 1) rfl rfl⟩

/-- C2: on a Failed or Reverted terminal state the executor discards all
accumulated effects, while the gas cost it reports is exactly the gas the
run consumed up to that point (not refunded); the result is always a
definite structured outcome. -/
theorem deploy_failure_discards_effects_keeps_gas (a : Account)
    (ks : List Nat) (gasLimit : Nat) (steps : List HostStep) :
    ((execDeploy a ks gasLimit steps).outcome ≠ Outcome.succeeded →
      (execDeploy a ks gasLimit steps).effects = []) ∧
    (authorizeDeploy a ks = .ok () →
      (execDeploy a ks gasLimit steps).gasCost =
        (runSteps gasLimit steps 0 []).2.2) := by
  cases ha : authorizeDeploy a ks with
  | error e =>
    refine ⟨fun _ => ?_, fun hok => ?_⟩
    · simp [execDeploy, ha]
    · exact absurd hok (by simp)
  | ok u =>
    rcases hr : runSteps gasLimit steps 0 [] with ⟨out, rest⟩
    rcases rest with ⟨effs, gas⟩
    refine ⟨fun hne => ?_, fun _ => ?_⟩
    · cases out with
      | succeeded =>
        exact absurd (by simp [execDeploy, ha, hr]) hne
      | reverted c => simp [execDeploy, ha, hr]
      | failed e => simp [execDeploy, ha, hr]
    · cases out with
      | succeeded => simp [execDeploy, ha, hr]
      | reverted c => simp [execDeploy, ha, hr]
      | failed e => simp [execDeploy, ha, hr]

/-- C2 witness: a deploy that buffers one effect (cost 1) and then
reverts ends with its effects discarded and the 1 unit of gas consumed
still charged. -/
theorem deploy_failure_discards_effects_keeps_gas_witness :
    (execDeploy ⟨0, [], [], ⟨0, 0⟩⟩ [] 10
      [HostStep.emit 1 (Key.hash 0, Operation.prune),
       HostStep.revertStep 5]).effects = [] ∧
    (execDeploy ⟨0, [], [], ⟨0, 0⟩⟩ [] 10
      [HostStep.emit 1 (Key.hash 0, Operation.prune),
       HostStep.revertStep 5]).gasCost = 1 :=
  ⟨(deploy_failure_discards_effects_keeps_gas ⟨0, [], [], ⟨0, 0⟩⟩ [] 10
      [HostStep.emit 1 (Key.hash 0, Operation.prune),
       HostStep.revertStep 5]).1 (by decide),
   (deploy_failure_discards_effects_keeps_gas ⟨0, [], [], ⟨0, 0⟩⟩ [] 10
      [HostStep.emit 1 (Key.hash 0, Operation.prune),
       HostStep.revertStep 5]).2 rfl⟩

/-- C6: a transfer of an amount strictly above the source purse balance
fails with the insufficient-funds TransferResult, buffers no
balance-changing effects, and the mint state is unchanged once the
(empty) effects are discarded. -/
theorem transfer_insufficient_funds (ctx : ExecContext) (st : MintState)
    (source : URef) (dest : Nat) (amount bal : Nat)
    (hchk : check ctx source .write = .ok ())
    (hbal : purseBalance st source.addr = some bal)
    (hlt : bal < amount) :
    transferFromPurseToAccount ctx st source dest amount =
      (.transferError, []) ∧
    applyTransferEffects st
      (transferFromPurseToAccount ctx st source dest amount).2 = st := by
  have h1 : transferFromPurseToAccount ctx st source dest amount =
      (.transferError, []) := by
    simp [transferFromPurseToAccount, hchk, hbal, hlt]
  exact ⟨h1, by rw [h1]; rfl⟩

/-- C6 witness: purse 1 holds 10; transferring 11 fails with the
insufficient-funds result, no effects, and an unchanged mint state. -/
theorem transfer_insufficient_funds_witness :
    transferFromPurseToAccount ⟨1, [⟨1, fullRights⟩], 100, []⟩
      ⟨[(1, 10)], []⟩ ⟨1, fullRights⟩ 2 11 = (.transferError, []) ∧
    applyTransferEffects ⟨[(1, 10)], []⟩
      (transferFromPurseToAccount ⟨1, [⟨1, fullRights⟩], 100, []⟩
        ⟨[(1, 10)], []⟩ ⟨1, fullRights⟩ 2 11).2 = ⟨[(1, 10)], []⟩ :=
  transfer_insufficient_funds ⟨1, [⟨1, fullRights⟩], 100, []⟩
    ⟨[(1, 10)], []⟩ ⟨1, fullRights⟩ 2 11 10 rfl rfl (by decide)

/-- C10: when both arguments deserialize and get_balance returns Some, the
stored transfer entry point completes (regardless of the transfer result)
writing the named keys transfer_result and final_balance, each under a
distinct freshly minted URef; it reverts with code 103 exactly when
get_balance returns None. -/
theorem transfer_contract_writes_two_keys (env : TransferHostEnv)
    (d a : Nat) (h0 : env.arg0 = some (Except.ok d))
    (h1 : env.arg1 = some (Except.ok a)) :
    (∀ bal, env.balanceResult = some bal →
      transferEntry env = .completed
        [(env.freshBase, .transferResultText env.transferResult),
         (env.freshBase + 1, .balance bal)]
        [(TRANSFER_RESULT_UREF_NAME, Key.uref env.freshBase fullRights),
         (MAIN_PURSE_FINAL_BALANCE_UREF_NAME,
          Key.uref (env.freshBase + 1) fullRights)] ∧
      env.freshBase ≠ env.freshBase + 1) ∧
    (env.balanceResult = none →
      transferEntry env = .contractReverted (.raw 103)) := by
  constructor
  · intro bal hb
    refine ⟨?_, by omega⟩
    simp [transferEntry, h0, h1, hb]
  · intro hb
    simp [transferEntry, h0, h1, hb]

/-- C10 witness: with both arguments deserialized and a balance of 90, a
failed transfer still completes with the two named keys under fresh URefs
17 and 18; with get_balance returning None it reverts with 103. -/
theorem transfer_contract_writes_two_keys_witness :
    transferEntry ⟨0, some (Except.ok 5), some (Except.ok 10),
        TransferResult.transferError, some 90, 17⟩ =
      ContractOutcome.completed
        [(17, NewValue.transferResultText TransferResult.transferError),
         (18, NewValue.balance 90)]
        [(TRANSFER_RESULT_UREF_NAME, Key.uref 17 fullRights),
         (MAIN_PURSE_FINAL_BALANCE_UREF_NAME, Key.uref 18 fullRights)] ∧
    transferEntry ⟨0, some (Except.ok 5), some (Except.ok 10),
        TransferResult.transferError, none, 17⟩ =
      ContractOutcome.contractReverted (RevertCode.raw 103) :=
  ⟨((transfer_contract_writes_two_keys
      ⟨0, some (Except.ok 5), some (Except.ok 10),
        TransferResult.transferError, some 90, 17⟩ 5 10 rfl rfl).1 90 rfl).1,
   (transfer_contract_writes_two_keys
      ⟨0, some (Except.ok 5), some (Except.ok 10),
        TransferResult.transferError, none, 17⟩ 5 10 rfl rfl).2 rfl⟩

theorem get_append_snapshot (st : GlobalStateStore) (snap : Snapshot)
    (r : RootHash) (k : Key) (h : r < st.snapshots.length) :
    GlobalStateStore.get ⟨st.snapshots ++ [snap]⟩ r k = st.get r k := by
  simp only [GlobalStateStore.get]
  rw [List.getElem?_append, if_pos h]

theorem query_append_snapshot (st : GlobalStateStore) (snap : Snapshot)
    (r : RootHash) (h : r < st.snapshots.length) :
    ∀ (path : List String) (k : Key),
      GlobalStateStore.query ⟨st.snapshots ++ [snap]⟩ r k path =
        st.query r k path
  | [], k => by
    simp only [GlobalStateStore.query]
    exact get_append_snapshot st snap r k h
  | name :: rest, k => by
    simp only [GlobalStateStore.query]
    rw [get_append_snapshot st snap r k h]
    cases st.get r k with
    | none => rfl
    | some v =>
      dsimp only
      cases namedKeysOf v with
      | none => rfl
      | some nks =>
        dsimp only
        cases nks.find? (fun p => p.1 == name) with
        | none => rfl
        | some p =>
          dsimp only
          exact query_append_snapshot st snap r h rest p.2

/-- C3: querying the root returned by commit reflects the effects applied
to the key, while every query against the old root returns exactly what it
returned before the commit: commit appends a new snapshot and never
mutates existing ones. -/
theorem commit_reflects_effects_preserves_history (st : GlobalStateStore)
    (root : RootHash) (effects : List Effect) (key : Key)
    (h : root < st.snapshots.length) :
    ((st.commit root effects).1.query ((st.commit root effects).2) key [] =
      applyEffects (st.snapshots.getD root (fun _ => none)) effects key) ∧
    (∀ (k : Key) (path : List String),
      (st.commit root effects).1.query root k path = st.query root k path) := by
  constructor
  · show ((st.commit root effects).1).get ((st.commit root effects).2) key = _
    simp [GlobalStateStore.commit, GlobalStateStore.get]
  · intro k path
    exact query_append_snapshot st _ root h path k

/-- C3 witness: a store with one empty snapshot; committing a write of
CLValue 3 under a hash key yields a root under which the key reflects the
effect, while the old root still resolves as before. -/
theorem commit_reflects_effects_preserves_history_witness :
    (((GlobalStateStore.mk [fun _ => none]).commit 0
        [(Key.hash 5, Operation.write (StoredValue.clvalue 3))]).1.query
      (((GlobalStateStore.mk [fun _ => none]).commit 0
        [(Key.hash 5, Operation.write (StoredValue.clvalue 3))]).2)
      (Key.hash 5) [] =
      applyEffects ((GlobalStateStore.mk [fun _ => none]).snapshots.getD 0
          (fun _ => none))
        [(Key.hash 5, Operation.write (StoredValue.clvalue 3))]
        (Key.hash 5)) ∧
    (((GlobalStateStore.mk [fun _ => none]).commit 0
        [(Key.hash 5, Operation.write (StoredValue.clvalue 3))]).1.query 0
      (Key.hash 5) [] =
      (GlobalStateStore.mk [fun _ => none]).query 0 (Key.hash 5) []) :=
  ⟨(commit_reflects_effects_preserves_history (GlobalStateStore.mk [fun _ => none])
      0 [(Key.hash 5, Operation.write (StoredValue.clvalue 3))] (Key.hash 5)
      (by decide)).1,
   (commit_reflects_effects_preserves_history (GlobalStateStore.mk [fun _ => none])
      0 [(Key.hash 5, Operation.write (StoredValue.clvalue 3))] (Key.hash 5)
      (by decide)).2 (Key.hash 5) []⟩

/-- C7: writing a value under a key via commit and reading it back via
query under the resulting root returns exactly the value written. -/
theorem commit_query_roundtrip (st : GlobalStateStore) (root : RootHash)
    (k : Key) (v : StoredValue) :
    ((st.commit root [(k, Operation.write v)]).1).query
      ((st.commit root [(k, Operation.write v)]).2) k [] = some v := by
  show ((st.commit root [(k, Operation.write v)]).1).get
      ((st.commit root [(k, Operation.write v)]).2) k = some v
  simp [GlobalStateStore.commit, GlobalStateStore.get, applyEffects, applyOp]

end CasperLabs
